import Mathlib

/-!
Shallow embedding of the schedule engine of `smart-attendance`
(`src/server/backend-api/app/api/routes/schedule.py` and
`src/server/backend-api/migrate_schedules.py`).

MongoDB collections are modelled as Lean lists of records, `find_one` as
`List.find?`, `find` as `List.filter` (order preserved), `to_list(length=n)`
as `List.take n`.  BSON `ObjectId` values are modelled as their 24-character
lowercase hex string; `ObjectId.is_valid` on a string is "length 24, all hex
digits" and is `false` on `None`.  Python truthiness of an optional string is
"present and non-empty"; of an optional int, "present and non-zero".
-/

/-- Python truthiness of an optional string (`None` and `""` are falsy). -/
def optStrTruthy : Option String → Bool
  | none => false
  | some s => s ≠ ""

/-- Python truthiness of an optional integer (`None` and `0` are falsy). -/
def optIntTruthy : Option Int → Bool
  | none => false
  | some n => n ≠ 0

/-- Hex digit test, both cases, as accepted by `ObjectId`. -/
def isHexChar (c : Char) : Bool :=
  (('0' ≤ c) && (c ≤ '9')) || (('a' ≤ c) && (c ≤ 'f')) || (('A' ≤ c) && (c ≤ 'F'))

/-- Model of `bson.ObjectId.is_valid` on a string: 24 hex characters. -/
def isValidOidStr (s : String) : Bool :=
  s.length == 24 && s.data.all isHexChar

/-- Model of `bson.ObjectId.is_valid` on an optional string; `is_valid(None)`
is `False` in `bson`. -/
def isValidOptOid : Option String → Bool
  | none => false
  | some s => isValidOidStr s

/-- Model of constructing `ObjectId(s)` from a valid hex string: two hex
spellings that differ only in case denote the same `ObjectId`, so the model
normalises to lower case. -/
def normOid (s : String) : String := String.mk (s.data.map Char.toLower)

/-- A value stored in a BSON `subject_id` field: either a real `ObjectId`
(the hex string, normalised) or a raw Python string that was inserted
without conversion. Queries by `ObjectId` never match a raw string. -/
inductive SRef where
  | oid (hex : String)
  | str (raw : String)
deriving DecidableEq, Repr

/-- A document of the `schedules` collection. -/
structure StoredEntry where
  _id : String
  day : Option String
  slot : Option Int
  start_time : Option String
  end_time : Option String
  teacher_id : Option String
  subject_id : Option SRef
  room_number : Option String
  branch : Option String
  semester : Option Int
deriving DecidableEq, Repr

/-- Metadata of a legacy timetable period (`period["metadata"]`); a missing
or empty (falsy) metadata dict is modelled as `none` on the period. -/
structure LegacyMeta where
  subject_id : Option String
  room : Option String
  grade : Option String
deriving DecidableEq, Repr

/-- The `metadata` value of a legacy period as the job reads it:
`period.get("metadata", {})` yields a falsy empty dict when the key is
absent (`absent` also covers a stored empty dict, which behaves the same),
an explicit stored `None` (`null`, also falsy, but crashing any later
`metadata.get(...)` attribute access), or a dict (`val`). -/
inductive MetaVal where
  | absent
  | null
  | val (m : LegacyMeta)
deriving DecidableEq, Repr

/-- One period of the legacy nested timetable.  `stop` models the `"end"`
key of the source document. -/
structure LegacyPeriod where
  start : Option String
  stop : Option String
  slot : Option Int
  metadata : MetaVal
deriving DecidableEq, Repr

/-- One day of the legacy nested timetable. -/
structure LegacyDay where
  day : Option String
  periods : List LegacyPeriod
deriving DecidableEq, Repr

/-- A document of the `teachers` collection: the identity linkage read by
the route handlers, plus the branch and nested legacy timetable
(`teacher["schedule"]["timetable"]`, empty when absent) read by the
migration job. -/
structure Teacher where
  _id : String
  user_id : String
  branch : Option String
  timetable : List LegacyDay
deriving DecidableEq, Repr

/-- A document of the `students` collection (the part the engine reads). -/
structure Student where
  _id : String
  user_id : String
  branch : Option String
  semester : Option Int
deriving DecidableEq, Repr

/-- A document of the `subjects` collection: an id and an optional name. -/
structure Subject where
  _id : String
  name : Option String
deriving DecidableEq, Repr

/-- The database state. `nextId` feeds the deterministic model of
`ObjectId` generation for inserted documents. -/
structure DB where
  teachers : List Teacher
  students : List Student
  subjects : List Subject
  schedules : List StoredEntry
  nextId : Nat
deriving DecidableEq, Repr

/-- The authenticated caller (`current_user`): a user id and a role tag. -/
structure Caller where
  user_id : String
  role : Option String
deriving DecidableEq, Repr

/-- The errors the handlers can raise (`HTTPException`s, plus the response
validation failure pydantic raises when a required field is `None`). -/
inductive ApiError where
  | profileNotFound
  | roleNotAuthorized
  | invalidSubjectId
  | invalidId
  | notFoundOrForbidden
  | subjectNotFound (id : String)
  | responseInvalid
deriving DecidableEq, Repr

/-- The `ClassPeriod` response model: `start_time`, `end_time` and `slot`
are required, the rest optional. -/
structure ClassPeriod where
  id : Option String
  day : Option String
  subject : Option String
  grade : Option String
  room : Option String
  start_time : String
  end_time : String
  slot : Int
  attendance_status : Option String
deriving DecidableEq, Repr

/-- The `TodayScheduleResponse` model. -/
structure TodayScheduleResponse where
  classes : List ClassPeriod
  current_day : String
deriving DecidableEq, Repr

/-- Modelled from the spec: the `ScheduleEntry` request schema
(`app/schemas/schedule.py` is not part of the sources).  Per the spec the
entry carries day, slot, times, an optional subject reference, room,
the denormalised cohort key, and a caller-suppliable owner field that the
mutation handlers overwrite.  `CreateScheduleRequest` adds nothing to it. -/
structure ScheduleEntry where
  day : Option String
  slot : Option Int
  start_time : Option String
  end_time : Option String
  subject_id : Option String
  room_number : Option String
  branch : Option String
  semester : Option Int
  teacher_id : Option String
deriving DecidableEq, Repr

/-! ### Read path (`get_full_schedule`, `get_today_schedule`) -/

/-- Truthiness of a stored `subject_id` value: an `ObjectId` is always
truthy, a raw string is truthy when non-empty, a missing value is falsy. -/
def srefTruthy : SRef → Bool
  | .oid _ => true
  | .str s => s ≠ ""

/-- A stored subject reference matches a catalog document when it is a real
`ObjectId` equal to the document id (a raw string never matches). -/
def srefMatches (r : SRef) (subj : Subject) : Bool :=
  match r with
  | .oid h => h == subj._id
  | .str _ => false

/-- Whether a stored `subject_id` resolves: it is present and truthy and a
catalog document with that id exists. -/
def resolvesSubject (db : DB) : Option SRef → Bool
  | none => false
  | some r => srefTruthy r && (db.subjects.find? (srefMatches r)).isSome

/-- Subject-name enrichment of the read path: placeholder name
"Unknown Subject" when the reference is missing or unresolvable, the
catalog name otherwise (with default "Unknown" when the record has no
name). -/
def subjectNameFor (db : DB) : Option SRef → String
  | none => "Unknown Subject"
  | some r =>
    if srefTruthy r then
      match db.subjects.find? (srefMatches r) with
      | some subj => subj.name.getD "Unknown"
      | none => "Unknown Subject"
    else "Unknown Subject"

/-- Model of `str(s.get("semester")) if s.get("semester") else None`. -/
def gradeOf : Option Int → Option String
  | none => none
  | some n => if n ≠ 0 then some (toString n) else none

/-- One iteration of the `get_full_schedule` response loop.  `ClassPeriod`
requires `start_time` and `end_time` to be strings and `slot` to be an
integer; every document written by this system carries all three keys
(possibly null), so the `get` defaults never fire and a stored null time
or null slot makes pydantic validation fail, which aborts the whole
request (`responseInvalid`). -/
def mkFullClassPeriod (db : DB) (s : StoredEntry) : Except ApiError ClassPeriod :=
  match s.start_time, s.end_time, s.slot with
  | some st, some et, some sl =>
    .ok { id := some s._id
          day := s.day
          subject := some (subjectNameFor db s.subject_id)
          grade := gradeOf s.semester
          room := s.room_number
          start_time := st
          end_time := et
          slot := sl
          attendance_status := none }
  | _, _, _ => .error .responseInvalid

/-- The `get_full_schedule` response loop over the fetched entries, first
failure aborting the request. -/
def fullFromEntries (db : DB) : List StoredEntry → Except ApiError (List ClassPeriod)
  | [] => .ok []
  | s :: rest =>
    match mkFullClassPeriod db s with
    | .error e => .error e
    | .ok c =>
      match fullFromEntries db rest with
      | .error e => .error e
      | .ok cs => .ok (c :: cs)

/-- Role resolution and query of `get_full_schedule`: ownership predicate
for teachers, cohort predicate for students (empty result when the cohort
key is incomplete), capped at 1000 documents. -/
def fullQueryEntries (db : DB) (caller : Caller) : Except ApiError (List StoredEntry) :=
  if caller.role == some "teacher" then
    match db.teachers.find? (fun t => t.user_id == caller.user_id) with
    | none => .error .profileNotFound
    | some t =>
      .ok ((db.schedules.filter (fun s => s.teacher_id == some t._id)).take 1000)
  else if caller.role == some "student" then
    match db.students.find? (fun st => st.user_id == caller.user_id) with
    | none => .error .profileNotFound
    | some st =>
      if optStrTruthy st.branch && optIntTruthy st.semester then
        .ok ((db.schedules.filter
          (fun s => s.branch == st.branch && s.semester == st.semester)).take 1000)
      else
        .ok []
  else .error .roleNotAuthorized

/-- The `GET /schedule/` handler. -/
def getFullSchedule (db : DB) (caller : Caller) : Except ApiError (List ClassPeriod) :=
  match fullQueryEntries db caller with
  | .error e => .error e
  | .ok entries => fullFromEntries db entries

/-- One retained row of the `get_today_schedule` loop (times already known
to be truthy strings, slot known to be a non-null integer). -/
def mkTodayClassPeriod (db : DB) (s : StoredEntry) (st et : String) (sl : Int) :
    ClassPeriod :=
  { id := some s._id
    day := none
    subject := some (subjectNameFor db s.subject_id)
    grade := gradeOf s.semester
    room := s.room_number
    start_time := st
    end_time := et
    slot := sl
    attendance_status := none }

/-- One iteration of the `get_today_schedule` loop: an entry whose
`start_time` or `end_time` is missing or empty is skipped (`continue`)
before the row is built; otherwise the `ClassPeriod` is constructed, and a
null `slot` — `ClassPeriod.slot` is a required integer — raises out of the
loop and fails the whole request. -/
def todayRowOf (db : DB) (s : StoredEntry) : Except ApiError (Option ClassPeriod) :=
  match s.start_time, s.end_time with
  | some st, some et =>
    if st ≠ "" && et ≠ "" then
      match s.slot with
      | some sl => .ok (some (mkTodayClassPeriod db s st et sl))
      | none => .error .responseInvalid
    else .ok none
  | _, _ => .ok none

/-- The `get_today_schedule` loop over the fetched entries, first failure
aborting the request. -/
def todayClassesRaw (db : DB) : List StoredEntry → Except ApiError (List ClassPeriod)
  | [] => .ok []
  | s :: rest =>
    match todayRowOf db s with
    | .error e => .error e
    | .ok none => todayClassesRaw db rest
    | .ok (some c) =>
      match todayClassesRaw db rest with
      | .error e => .error e
      | .ok cs => .ok (c :: cs)

/-- Model of `datetime.strptime(x, "%H:%M").time()`: one or two digits of
hour at most 23, a colon, one or two digits of minute at most 59, nothing
else. -/
def parseHHMM (s : String) : Option (Nat × Nat) :=
  match s.splitOn ":" with
  | [h, m] =>
    match h.toNat?, m.toNat? with
    | some hv, some mv =>
      if 1 ≤ h.length && h.length ≤ 2 && 1 ≤ m.length && m.length ≤ 2
          && hv ≤ 23 && mv ≤ 59 then
        some (hv, mv)
      else none
    | _, _ => none
  | _ => none

/-- Comparison of two rows by parsed start time (`datetime.time` compares
lexicographically by hour then minute); only used on rows whose key
parses. -/
def classLe (a b : ClassPeriod) : Bool :=
  let x := (parseHHMM a.start_time).getD (0, 0)
  let y := (parseHHMM b.start_time).getD (0, 0)
  x.1 < y.1 || (x.1 == y.1 && x.2 ≤ y.2)

/-- Model of the guarded sort of `get_today_schedule`: CPython `list.sort`
with a `key` function computes every key before moving any element, so if
some key raises `ValueError` the list is left in its original order and the
handler swallows the exception; otherwise the list is stably sorted. -/
def sortClasses (cs : List ClassPeriod) : List ClassPeriod :=
  if cs.all (fun c => (parseHHMM c.start_time).isSome) then
    cs.mergeSort classLe
  else cs

/-- Role resolution and query of `get_today_schedule`: the day filter plus
the role predicate, capped at 100 documents. -/
def todayQueryEntries (db : DB) (caller : Caller) (current_day : String) :
    Except ApiError (List StoredEntry) :=
  if caller.role == some "teacher" then
    match db.teachers.find? (fun t => t.user_id == caller.user_id) with
    | none => .error .profileNotFound
    | some t =>
      .ok ((db.schedules.filter
        (fun s => s.day == some current_day && s.teacher_id == some t._id)).take 100)
  else if caller.role == some "student" then
    match db.students.find? (fun st => st.user_id == caller.user_id) with
    | none => .error .profileNotFound
    | some st =>
      if optStrTruthy st.branch && optIntTruthy st.semester then
        .ok ((db.schedules.filter
          (fun s => s.day == some current_day
            && s.branch == st.branch && s.semester == st.semester)).take 100)
      else
        .ok []
  else .error .roleNotAuthorized

/-- The `GET /schedule/today` handler; `current_day` is the weekday name
computed by the day/time context for the configured timezone. -/
def getTodaySchedule (db : DB) (caller : Caller) (current_day : String) :
    Except ApiError TodayScheduleResponse :=
  match todayQueryEntries db caller current_day with
  | .error e => .error e
  | .ok entries =>
    match todayClassesRaw db entries with
    | .error e => .error e
    | .ok cs =>
      .ok { classes := sortClasses cs
            current_day := current_day }

/-! ### Mutation path (`create_schedule_entry`, `delete_schedule_entry`,
`replace_full_schedule`) -/

/-- Lowercase hex rendering of a counter value, padded to the 24 characters
of an `ObjectId`: the deterministic model of id generation at insert. -/
def freshOid (n : Nat) : String :=
  let ds := Nat.toDigits 16 n
  String.mk (List.replicate (24 - ds.length) '0' ++ ds)

/-- Model of `entry.dict()`: the request fields laid out as a schedules
document, before the handlers overwrite `subject_id` and `teacher_id`.  A
raw request `subject_id` becomes a plain string value, not an `ObjectId`. -/
def docOfEntry (e : ScheduleEntry) : StoredEntry :=
  { _id := ""
    day := e.day
    slot := e.slot
    start_time := e.start_time
    end_time := e.end_time
    teacher_id := e.teacher_id
    subject_id := e.subject_id.map .str
    room_number := e.room_number
    branch := e.branch
    semester := e.semester }

/-- Model of `insert_one`: stamp a generated id on the document and append
it to the collection. -/
def insertOne (db : DB) (doc : StoredEntry) : DB × String :=
  let id := freshOid db.nextId
  ({ db with
      schedules := db.schedules ++ [{ doc with _id := id }]
      nextId := db.nextId + 1 }, id)

/-- Model of `insert_many`: insert the documents in order. -/
def insertMany (db : DB) : List StoredEntry → DB
  | [] => db
  | doc :: rest => insertMany (insertOne db doc).1 rest

/-- The `POST /schedule/` handler.  It validates only that `subject_id` is a
well-formed `ObjectId` (rejecting `None`, since `is_valid(None)` is false);
it does not consult the subject catalog.  Ownership is stamped from the
resolved teacher profile. -/
def createScheduleEntry (db : DB) (caller : Caller) (entry : ScheduleEntry) :
    DB × Except ApiError String :=
  if caller.role != some "teacher" then
    (db, .error .roleNotAuthorized)
  else
    match db.teachers.find? (fun t => t.user_id == caller.user_id) with
    | none => (db, .error .profileNotFound)
    | some t =>
      if !isValidOptOid entry.subject_id then
        (db, .error .invalidSubjectId)
      else
        let doc := { docOfEntry entry with
                      subject_id := entry.subject_id.map (fun s => .oid (normOid s))
                      teacher_id := some t._id }
        let (db', newId) := insertOne db doc
        (db', .ok newId)

/-- The `DELETE /schedule/{schedule_id}` handler.  `delete_one` removes the
first document matching both the id and the caller's ownership; a zero
deleted count — wrong id or someone else's entry alike — is the merged
`notFoundOrForbidden` error with the store untouched. -/
def deleteScheduleEntry (db : DB) (caller : Caller) (schedule_id : String) :
    DB × Except ApiError String :=
  if caller.role != some "teacher" then
    (db, .error .roleNotAuthorized)
  else if !isValidOidStr schedule_id then
    (db, .error .invalidId)
  else
    match db.teachers.find? (fun t => t.user_id == caller.user_id) with
    | none => (db, .error .profileNotFound)
    | some t =>
      let target := fun s : StoredEntry =>
        s._id == normOid schedule_id && s.teacher_id == some t._id
      if db.schedules.any target then
        ({ db with schedules := db.schedules.eraseP target }, .ok "Deleted")
      else
        (db, .error .notFoundOrForbidden)

/-- The per-entry body of the `replace_full_schedule` loop: only when the
request `subject_id` is truthy and a well-formed `ObjectId` is the subject
catalog consulted — aborting with the offending id when the subject does
not exist, converting to an `ObjectId` value when it does.  A malformed or
empty reference falls through and the raw value is kept in the document.
Ownership is stamped on every document. -/
def buildReplaceDocs (db : DB) (tid : String) :
    List ScheduleEntry → Except ApiError (List StoredEntry)
  | [] => .ok []
  | e :: rest =>
    let base := docOfEntry e
    let step : Except ApiError StoredEntry :=
      if optStrTruthy e.subject_id && isValidOptOid e.subject_id then
        let h := normOid (e.subject_id.getD "")
        match db.subjects.find? (fun subj => subj._id == h) with
        | none => .error (.subjectNotFound (e.subject_id.getD ""))
        | some _ => .ok { base with subject_id := some (.oid h) }
      else
        .ok base
    match step with
    | .error err => .error err
    | .ok doc =>
      match buildReplaceDocs db tid rest with
      | .error err => .error err
      | .ok docs => .ok ({ doc with teacher_id := some tid } :: docs)

/-- The `PUT /schedule/` handler: phase 1 deletes every entry of the caller
(`delete_many`), then an empty input returns "Schedule cleared"; otherwise
the input is validated and stamped, any abort leaving the store in the
phase-1 state, and the surviving documents are batch-inserted. -/
def replaceFullSchedule (db : DB) (caller : Caller) (entries : List ScheduleEntry) :
    DB × Except ApiError String :=
  if caller.role != some "teacher" then
    (db, .error .roleNotAuthorized)
  else
    match db.teachers.find? (fun t => t.user_id == caller.user_id) with
    | none => (db, .error .profileNotFound)
    | some t =>
      let db1 := { db with
        schedules := db.schedules.filter (fun s => s.teacher_id != some t._id) }
      if entries.isEmpty then
        (db1, .ok "Schedule cleared")
      else
        match buildReplaceDocs db1 t._id entries with
        | .error err => (db1, .error err)
        | .ok docs =>
          (insertMany db1 docs,
            .ok ("Schedule updated with " ++ toString docs.length ++ " entries"))

/-! ### Legacy migration (`migrate_schedules.py`) -/

/-- First maximal run of decimal digits in a character list (the model of
the first match of the pattern of one-or-more digits). -/
def firstDigitRun : List Char → Option (List Char)
  | [] => none
  | c :: rest =>
    if c.isDigit then some (c :: rest.takeWhile Char.isDigit)
    else firstDigitRun rest

/-- First embedded integer of a string, the best-effort semester heuristic
(`re.search` for digits, then `int`). -/
def firstNatIn (s : String) : Option Nat :=
  (firstDigitRun s.data).bind (fun cs => (String.mk cs).toNat?)

/-- Outcome report of a migration run, mirroring its prints. -/
inductive MigrationReport where
  | alreadyPopulated (count : Nat)
  | migrated (inserted : Nat)
  | noData
deriving DecidableEq, Repr

/-- Lookup in a legacy metadata value under the truthiness guard
`metadata.get(key) if metadata else None`: falsy values (empty dict or
`None`) give `None` without an attribute access. -/
def metaGuardedSubject : MetaVal → Option String
  | .val m => m.subject_id
  | _ => none

/-- The inner period loop of the migration: a period lacking a truthy day
name, start or end is skipped (logged, not failed); a truthy legacy
`subject_id` is converted with `ObjectId(...)`, which raises out of the job
when the string is malformed; the unguarded `metadata.get("room")` raises
`AttributeError` out of the job when `metadata` is an explicit `None`;
`semester` is derived from the grade label when that label is truthy and
contains digits. -/
def migratePeriods (tid : String) (branch : Option String) (day_name : Option String) :
    List LegacyPeriod → Except String (List StoredEntry)
  | [] => .ok []
  | p :: rest =>
    if !(optStrTruthy day_name && optStrTruthy p.start && optStrTruthy p.stop) then
      migratePeriods tid branch day_name rest
    else
      let sid := metaGuardedSubject p.metadata
      let sidVal : Except String (Option SRef) :=
        if optStrTruthy sid then
          let s := sid.getD ""
          if isValidOidStr s then .ok (some (.oid (normOid s)))
          else .error "bson InvalidId"
        else .ok none
      match sidVal with
      | .error e => .error e
      | .ok sv =>
        match p.metadata with
        | .null => .error "AttributeError"
        | mv =>
          let room := match mv with | .val m => m.room | _ => none
          let grade := match mv with | .val m => m.grade | _ => none
          let sem : Option Int :=
            match grade with
            | none => none
            | some g => if g ≠ "" then (firstNatIn g).map Int.ofNat else none
          let entry : StoredEntry :=
            { _id := ""
              day := day_name
              slot := p.slot
              start_time := p.start
              end_time := p.stop
              teacher_id := some tid
              subject_id := sv
              room_number := room
              branch := branch
              semester := sem }
          match migratePeriods tid branch day_name rest with
          | .error e => .error e
          | .ok es => .ok (entry :: es)

/-- The per-day loop of the migration. -/
def migrateDays (tid : String) (branch : Option String) :
    List LegacyDay → Except String (List StoredEntry)
  | [] => .ok []
  | d :: rest =>
    match migratePeriods tid branch d.day d.periods with
    | .error e => .error e
    | .ok xs =>
      match migrateDays tid branch rest with
      | .error e => .error e
      | .ok ys => .ok (xs ++ ys)

/-- The per-teacher loop of the migration: branch is inherited from the
teacher record. -/
def migrateTeachers : List Teacher → Except String (List StoredEntry)
  | [] => .ok []
  | t :: rest =>
    match migrateDays t._id t.branch t.timetable with
    | .error e => .error e
    | .ok xs =>
      match migrateTeachers rest with
      | .error e => .error e
      | .ok ys => .ok (xs ++ ys)

/-- The migration job.  Guard first: a non-empty target collection makes
the whole run a no-op that reports the pre-existing count.  Otherwise all
qualifying periods of all teachers are collected and inserted in one batch
at the end; an empty collection result reports "no data" and writes
nothing. -/
def migrate (db : DB) : Except String (DB × MigrationReport) :=
  if db.schedules.length > 0 then
    .ok (db, .alreadyPopulated db.schedules.length)
  else
    match migrateTeachers db.teachers with
    | .error e => .error e
    | .ok docs =>
      if docs.isEmpty then .ok (db, .noData)
      else .ok (insertMany db docs, .migrated docs.length)

/-! ### Helper lemmas -/

/-- A row of the full-schedule response fails to build when a time or the
slot is missing. -/
theorem mkFullClassPeriod_error (db : DB) (s : StoredEntry)
    (h : s.start_time = none ∨ s.end_time = none ∨ s.slot = none) :
    mkFullClassPeriod db s = .error .responseInvalid := by
  rcases hst : s.start_time with _ | st
  · unfold mkFullClassPeriod
    rw [hst]
  · rcases het : s.end_time with _ | et
    · unfold mkFullClassPeriod
      rw [hst, het]
    · rcases hsl : s.slot with _ | sl
      · unfold mkFullClassPeriod
        rw [hst, het, hsl]
      · exfalso
        rcases h with h | h | h
        · rw [hst] at h
          exact Option.noConfusion h
        · rw [het] at h
          exact Option.noConfusion h
        · rw [hsl] at h
          exact Option.noConfusion h

/-- The only error a full-schedule row build can produce is the
response-validation error. -/
theorem mkFullClassPeriod_error_eq (db : DB) (s : StoredEntry) (e : ApiError)
    (h : mkFullClassPeriod db s = .error e) : e = .responseInvalid := by
  unfold mkFullClassPeriod at h
  split at h
  · exact Except.noConfusion h
  · injection h with h'
    exact h'.symm

/-- Every row of a successfully built full-schedule response comes from one
of the fetched entries. -/
theorem fullFromEntries_ok_mem (db : DB) (es : List StoredEntry)
    (cs : List ClassPeriod) (h : fullFromEntries db es = .ok cs) :
    ∀ c ∈ cs, ∃ s ∈ es, mkFullClassPeriod db s = .ok c := by
  induction es generalizing cs with
  | nil =>
    simp [fullFromEntries] at h
    subst h; simp
  | cons s rest ih =>
    simp only [fullFromEntries] at h
    cases hm : mkFullClassPeriod db s with
    | error e => rw [hm] at h; cases h
    | ok c0 =>
      rw [hm] at h
      cases hr : fullFromEntries db rest with
      | error e => rw [hr] at h; cases h
      | ok cs0 =>
        rw [hr] at h
        cases h
        intro c hc
        rcases List.mem_cons.mp hc with rfl | hc'
        · exact ⟨s, List.mem_cons_self .., hm⟩
        · rcases ih cs0 hr c hc' with ⟨s', hs', hmk⟩
          exact ⟨s', List.mem_cons_of_mem _ hs', hmk⟩

/-- A successfully built full-schedule response has one row per fetched
entry. -/
theorem fullFromEntries_ok_length (db : DB) (es : List StoredEntry)
    (cs : List ClassPeriod) (h : fullFromEntries db es = .ok cs) :
    cs.length = es.length := by
  induction es generalizing cs with
  | nil => simp [fullFromEntries] at h; subst h; rfl
  | cons s rest ih =>
    simp only [fullFromEntries] at h
    cases hm : mkFullClassPeriod db s with
    | error e => rw [hm] at h; cases h
    | ok c0 =>
      rw [hm] at h
      cases hr : fullFromEntries db rest with
      | error e => rw [hr] at h; cases h
      | ok cs0 =>
        rw [hr] at h
        cases h
        simp [ih cs0 hr]

/-- A fetched entry with a missing time or slot makes the whole
full-schedule response fail with the response-validation error. -/
theorem fullFromEntries_error (db : DB) (es : List StoredEntry)
    (h : ∃ s ∈ es, s.start_time = none ∨ s.end_time = none ∨ s.slot = none) :
    fullFromEntries db es = .error .responseInvalid := by
  induction es with
  | nil => simp at h
  | cons s rest ih =>
    rcases h with ⟨s0, hs0, hbad⟩
    rcases List.mem_cons.mp hs0 with rfl | hs0'
    · simp [fullFromEntries, mkFullClassPeriod_error db s0 hbad]
    · simp only [fullFromEntries]
      cases hm : mkFullClassPeriod db s with
      | error e =>
        rw [mkFullClassPeriod_error_eq db s e hm]
      | ok c0 => rw [ih ⟨s0, hs0', hbad⟩]

/-- A Bool that is not true is false. -/
theorem ne_true_eq_false {b : Bool} (h : ¬b = true) : b = false := by
  cases b
  · rfl
  · exact absurd rfl h

/-- A skipped row of the today view is exactly one with a falsy time: the
skip happens before the row is built, so such an entry can never raise. -/
theorem todayRowOf_eq_none_iff (db : DB) (s : StoredEntry) :
    todayRowOf db s = .ok none ↔
      (optStrTruthy s.start_time && optStrTruthy s.end_time) = false := by
  constructor
  · intro h
    unfold todayRowOf at h
    split at h
    · rename_i st et hss hse
      split at h
      · split at h
        · injection h with h1
          exact Option.noConfusion h1
        · exact Except.noConfusion h
      · rename_i hcond
        rw [hss, hse]
        exact ne_true_eq_false hcond
    · rename_i a b hab
      rcases hss : s.start_time with _ | st
      · rfl
      · rcases hse : s.end_time with _ | et
        · simp [optStrTruthy]
        · exact (hab st et hss hse).elim
  · intro hfalse
    unfold todayRowOf
    split
    · rename_i st et hss hse
      rw [hss, hse] at hfalse
      simp only [optStrTruthy] at hfalse
      split
      · rename_i hc
        rw [hc] at hfalse
        exact Bool.noConfusion hfalse
      · rfl
    · rfl

/-- A kept row of the today view records an entry with truthy times and a
non-null slot, and is built from exactly those values. -/
theorem todayRowOf_some (db : DB) (s : StoredEntry) (c : ClassPeriod)
    (h : todayRowOf db s = .ok (some c)) :
    ∃ st et sl, s.start_time = some st ∧ s.end_time = some et ∧
      st ≠ "" ∧ et ≠ "" ∧ s.slot = some sl ∧ c = mkTodayClassPeriod db s st et sl := by
  unfold todayRowOf at h
  split at h
  · rename_i st et hss hse
    split at h
    · rename_i hcond
      split at h
      · rename_i sl hsl
        injection h with h1
        injection h1 with h2
        rcases Bool.and_eq_true .. |>.mp hcond with ⟨h3, h4⟩
        exact ⟨st, et, sl, hss, hse, by simpa using h3, by simpa using h4,
          hsl, h2.symm⟩
      · exact Except.noConfusion h
    · injection h with h1
      exact Option.noConfusion h1
  · injection h with h1
    exact Option.noConfusion h1

/-- The today-row build fails only on an entry with truthy times and a
null slot, and then with the response-validation error. -/
theorem todayRowOf_error (db : DB) (s : StoredEntry) (e : ApiError)
    (h : todayRowOf db s = .error e) :
    (optStrTruthy s.start_time && optStrTruthy s.end_time) = true ∧
      s.slot = none ∧ e = .responseInvalid := by
  unfold todayRowOf at h
  split at h
  · rename_i st et hss hse
    split at h
    · rename_i hcond
      split at h
      · exact Except.noConfusion h
      · rename_i hsl
        injection h with h1
        refine ⟨?_, hsl, h1.symm⟩
        rw [hss, hse]
        exact hcond
    · exact Except.noConfusion h
  · exact Except.noConfusion h

/-- An entry with truthy times and a null slot makes the today-row build
fail. -/
theorem todayRowOf_error_of (db : DB) (s : StoredEntry)
    (htr : (optStrTruthy s.start_time && optStrTruthy s.end_time) = true)
    (hsl : s.slot = none) : todayRowOf db s = .error .responseInvalid := by
  unfold todayRowOf
  split
  · rename_i st et hss hse
    have hc : (decide (st ≠ "") && decide (et ≠ "")) = true := by
      rw [hss, hse] at htr
      exact htr
    rw [hsl, if_pos hc]
  · rename_i a b hab
    rcases hss : s.start_time with _ | st
    · rw [hss] at htr
      simp [optStrTruthy] at htr
    · rcases hse : s.end_time with _ | et
      · rw [hss, hse] at htr
        simp [optStrTruthy] at htr
      · exact (hab st et hss hse).elim

/-- Every row of a successfully built today view comes from a fetched
entry with truthy times and a non-null slot, via the row builder. -/
theorem todayClassesRaw_mem (db : DB) (es : List StoredEntry)
    (cs : List ClassPeriod) (h : todayClassesRaw db es = .ok cs) :
    ∀ c ∈ cs, ∃ s ∈ es, ∃ st et sl, s.start_time = some st ∧
      s.end_time = some et ∧ st ≠ "" ∧ et ≠ "" ∧ s.slot = some sl ∧
      c = mkTodayClassPeriod db s st et sl := by
  induction es generalizing cs with
  | nil =>
    simp [todayClassesRaw] at h
    subst h; simp
  | cons s rest ih =>
    simp only [todayClassesRaw] at h
    cases hrow : todayRowOf db s with
    | error e => rw [hrow] at h; cases h
    | ok o =>
      rw [hrow] at h
      cases o with
      | none =>
        intro c hc
        rcases ih cs h c hc with ⟨s', hs', hrest⟩
        exact ⟨s', List.mem_cons_of_mem _ hs', hrest⟩
      | some c0 =>
        cases hr : todayClassesRaw db rest with
        | error e => rw [hr] at h; cases h
        | ok cs0 =>
          rw [hr] at h
          cases h
          intro c hc
          rcases List.mem_cons.mp hc with rfl | hc'
          · rcases todayRowOf_some db s c hrow with ⟨st, et, sl, hrest⟩
            exact ⟨s, List.mem_cons_self .., st, et, sl, hrest⟩
          · rcases ih cs0 hr c hc' with ⟨s', hs', hrest⟩
            exact ⟨s', List.mem_cons_of_mem _ hs', hrest⟩

/-- A successfully built today view has at most one row per fetched
entry. -/
theorem todayClassesRaw_length (db : DB) (es : List StoredEntry)
    (cs : List ClassPeriod) (h : todayClassesRaw db es = .ok cs) :
    cs.length ≤ es.length := by
  induction es generalizing cs with
  | nil =>
    simp [todayClassesRaw] at h
    subst h; simp
  | cons s rest ih =>
    simp only [todayClassesRaw] at h
    cases hrow : todayRowOf db s with
    | error e => rw [hrow] at h; cases h
    | ok o =>
      rw [hrow] at h
      cases o with
      | none => exact Nat.le_succ_of_le (ih cs h)
      | some c0 =>
        cases hr : todayClassesRaw db rest with
        | error e => rw [hr] at h; cases h
        | ok cs0 =>
          rw [hr] at h
          cases h
          simpa using Nat.succ_le_succ (ih cs0 hr)

/-- Entries with falsy times contribute nothing to the today view: the
loop over all fetched entries equals the loop over only those with truthy
times, errors included. -/
theorem todayClassesRaw_filter (db : DB) (es : List StoredEntry) :
    todayClassesRaw db es =
      todayClassesRaw db
        (es.filter (fun s => optStrTruthy s.start_time && optStrTruthy s.end_time)) := by
  induction es with
  | nil => rfl
  | cons s rest ih =>
    rw [List.filter_cons]
    by_cases hp : (optStrTruthy s.start_time && optStrTruthy s.end_time) = true
    · rw [if_pos hp]
      simp only [todayClassesRaw]
      rw [ih]
    · have hfalse : (optStrTruthy s.start_time && optStrTruthy s.end_time) = false := by
        revert hp
        cases optStrTruthy s.start_time && optStrTruthy s.end_time <;> simp
      have hrow : todayRowOf db s = .ok none := (todayRowOf_eq_none_iff db s).mpr hfalse
      rw [if_neg hp]
      simp only [todayClassesRaw]
      rw [hrow]
      exact ih

/-- When every fetched entry with truthy times has a non-null slot, the
today loop succeeds. -/
theorem todayClassesRaw_ok (db : DB) (es : List StoredEntry)
    (h : ∀ s ∈ es, (optStrTruthy s.start_time && optStrTruthy s.end_time) = true →
      s.slot ≠ none) :
    ∃ cs, todayClassesRaw db es = .ok cs := by
  induction es with
  | nil => exact ⟨[], rfl⟩
  | cons s rest ih =>
    rcases ih (fun x hx => h x (List.mem_cons_of_mem _ hx)) with ⟨cs0, hr⟩
    cases hrow : todayRowOf db s with
    | error e =>
      rcases todayRowOf_error db s e hrow with ⟨htr, hsl, _⟩
      exact absurd hsl (h s (List.mem_cons_self ..) htr)
    | ok o =>
      cases o with
      | none =>
        refine ⟨cs0, ?_⟩
        simp only [todayClassesRaw]
        rw [hrow, hr]
      | some c0 =>
        refine ⟨c0 :: cs0, ?_⟩
        simp only [todayClassesRaw]
        rw [hrow, hr]

/-- When some fetched entry with truthy times has a null slot, the whole
today loop fails with the response-validation error. -/
theorem todayClassesRaw_error (db : DB) (es : List StoredEntry)
    (h : ∃ s ∈ es, (optStrTruthy s.start_time && optStrTruthy s.end_time) = true ∧
      s.slot = none) :
    todayClassesRaw db es = .error .responseInvalid := by
  induction es with
  | nil => simp at h
  | cons s rest ih =>
    simp only [todayClassesRaw]
    cases hrow : todayRowOf db s with
    | error e =>
      rcases todayRowOf_error db s e hrow with ⟨_, _, rfl⟩
      rfl
    | ok o =>
      have hrest : ∃ x ∈ rest,
          (optStrTruthy x.start_time && optStrTruthy x.end_time) = true ∧
            x.slot = none := by
        rcases h with ⟨x, hx, htr, hsl⟩
        rcases List.mem_cons.mp hx with rfl | hx'
        · rw [todayRowOf_error_of db x htr hsl] at hrow
          exact Except.noConfusion hrow
        · exact ⟨x, hx', htr, hsl⟩
      cases o with
      | none => exact ih hrest
      | some c0 => rw [ih hrest]

/-- Transitivity of the start-time comparison used by the today sort. -/
theorem classLe_trans (a b c : ClassPeriod) (h1 : classLe a b = true)
    (h2 : classLe b c = true) : classLe a c = true := by
  simp only [classLe, Bool.or_eq_true, Bool.and_eq_true, decide_eq_true_eq,
    beq_iff_eq] at h1 h2 ⊢
  omega

/-- Totality of the start-time comparison used by the today sort. -/
theorem classLe_total (a b : ClassPeriod) : (classLe a b || classLe b a) = true := by
  simp only [classLe, Bool.or_eq_true, Bool.and_eq_true, decide_eq_true_eq,
    beq_iff_eq]
  omega

/-- The guarded sort returns a permutation of its input in both branches. -/
theorem sortClasses_perm (cs : List ClassPeriod) : List.Perm (sortClasses cs) cs := by
  unfold sortClasses
  split
  · exact List.mergeSort_perm cs classLe
  · exact List.Perm.refl cs

/-- Inserting a batch only appends documents, and every appended document
keeps the `teacher_id` of one of the batch documents. -/
theorem insertMany_mem (docs : List StoredEntry) (db : DB) (s : StoredEntry)
    (h : s ∈ (insertMany db docs).schedules) :
    s ∈ db.schedules ∨ ∃ doc ∈ docs, s.teacher_id = doc.teacher_id := by
  induction docs generalizing db with
  | nil => exact .inl h
  | cons d rest ih =>
    rcases ih (insertOne db d).1 h with h1 | ⟨doc, hd, ht⟩
    · simp only [insertOne, List.mem_append, List.mem_singleton] at h1
      rcases h1 with h1 | rfl
      · exact .inl h1
      · exact .inr ⟨d, List.mem_cons_self .., rfl⟩
    · exact .inr ⟨doc, List.mem_cons_of_mem _ hd, ht⟩

/-- Every document surviving the replace-all validation loop carries the
stamped ownership of the calling teacher. -/
theorem buildReplaceDocs_teacher (db : DB) (tid : String)
    (es : List ScheduleEntry) (docs : List StoredEntry)
    (h : buildReplaceDocs db tid es = .ok docs) :
    ∀ doc ∈ docs, doc.teacher_id = some tid := by
  induction es generalizing docs with
  | nil =>
    simp [buildReplaceDocs] at h
    subst h; simp
  | cons e rest ih =>
    simp only [buildReplaceDocs] at h
    rcases hstep : (if optStrTruthy e.subject_id && isValidOptOid e.subject_id then
        match db.subjects.find?
            (fun subj => subj._id == normOid (e.subject_id.getD "")) with
        | none => Except.error (ApiError.subjectNotFound (e.subject_id.getD ""))
        | some _ =>
          Except.ok { docOfEntry e with
            subject_id := some (.oid (normOid (e.subject_id.getD ""))) }
      else Except.ok (docOfEntry e) : Except ApiError StoredEntry) with _ | doc
    · rw [hstep] at h; cases h
    · rw [hstep] at h
      cases hr : buildReplaceDocs db tid rest with
      | error err => rw [hr] at h; cases h
      | ok docs0 =>
        rw [hr] at h
        cases h
        intro x hx
        rcases List.mem_cons.mp hx with rfl | hx'
        · rfl
        · exact ih docs0 hr x hx'

/-- The condition under which the replace-all loop aborts on an entry: a
truthy, well-formed subject reference with no catalog record behind it. -/
def replaceAborts (subjects : List Subject) (e : ScheduleEntry) : Bool :=
  optStrTruthy e.subject_id && isValidOptOid e.subject_id &&
    (subjects.find? (fun subj => subj._id == normOid (e.subject_id.getD ""))).isNone


/-- If some supplied entry meets the abort condition, the replace-all
validation loop fails with the offending-subject error. -/
theorem buildReplaceDocs_error (db : DB) (tid : String) (es : List ScheduleEntry)
    (h : ∃ e ∈ es, replaceAborts db.subjects e = true) :
    ∃ i, buildReplaceDocs db tid es = .error (.subjectNotFound i) := by
  induction es with
  | nil => simp at h
  | cons e rest ih =>
    simp only [buildReplaceDocs]
    by_cases habort : replaceAborts db.subjects e = true
    · have habort' := habort
      simp only [replaceAborts, Bool.and_eq_true, Option.isNone_iff_eq_none] at habort'
      have hcond : (optStrTruthy e.subject_id && isValidOptOid e.subject_id) = true := by
        simp [habort'.1.1, habort'.1.2]
      have hfind := habort'.2
      refine ⟨e.subject_id.getD "", ?_⟩
      rw [if_pos hcond, hfind]
    · have hrest : ∃ x ∈ rest, replaceAborts db.subjects x = true := by
        rcases h with ⟨x, hx, hax⟩
        rcases List.mem_cons.mp hx with rfl | hx'
        · exact absurd hax habort
        · exact ⟨x, hx', hax⟩
      rcases ih hrest with ⟨i, hi⟩
      refine ⟨i, ?_⟩
      by_cases hcond : (optStrTruthy e.subject_id && isValidOptOid e.subject_id) = true
      · rcases hfind : db.subjects.find?
            (fun subj => subj._id == normOid (e.subject_id.getD "")) with _ | subj
        · exfalso
          apply habort
          simp [replaceAborts, hcond, hfind]
        · rw [if_pos hcond, hfind, hi]
      · rw [if_neg hcond, hi]

/-- If no supplied entry meets the abort condition, the replace-all
validation loop succeeds. -/
theorem buildReplaceDocs_ok (db : DB) (tid : String) (es : List ScheduleEntry)
    (h : ∀ e ∈ es, replaceAborts db.subjects e = false) :
    ∃ docs, buildReplaceDocs db tid es = .ok docs := by
  induction es with
  | nil => exact ⟨[], rfl⟩
  | cons e rest ih =>
    rcases ih (fun x hx => h x (List.mem_cons_of_mem _ hx)) with ⟨docs0, hr⟩
    have he := h e (List.mem_cons_self ..)
    by_cases hcond : (optStrTruthy e.subject_id && isValidOptOid e.subject_id) = true
    · rcases hfind : db.subjects.find?
          (fun subj => subj._id == normOid (e.subject_id.getD "")) with _ | subj
      · exfalso
        apply absurd he
        simp [replaceAborts, hcond, hfind]
      · refine ⟨{ docOfEntry e with
            subject_id := some (.oid (normOid (e.subject_id.getD "")))
            teacher_id := some tid } :: docs0, ?_⟩
        simp only [buildReplaceDocs]
        rw [if_pos hcond, hfind, hr]
    · refine ⟨{ docOfEntry e with teacher_id := some tid } :: docs0, ?_⟩
      simp only [buildReplaceDocs]
      rw [if_neg hcond, hr]

/-! ### Concrete fixtures used by witnesses and counterexamples -/

/-- A teacher profile linked to user `u1`. -/
def sampleTeacher : Teacher :=
  { _id := "aaaaaaaaaaaaaaaaaaaaaaaa", user_id := "u1", branch := some "CSE",
    timetable := [] }

/-- A student profile linked to user `u2`, cohort CSE semester 4. -/
def sampleStudent : Student :=
  { _id := "ffffffffffffffffffffffff", user_id := "u2", branch := some "CSE",
    semester := some 4 }

/-- A student profile linked to user `u4` with no branch recorded. -/
def cohortlessStudent : Student :=
  { _id := "abababababababababababab", user_id := "u4", branch := none,
    semester := some 4 }

/-- The one subject of the catalog fixture. -/
def mathSubject : Subject :=
  { _id := "bbbbbbbbbbbbbbbbbbbbbbbb", name := some "Math" }

/-- A stored entry at 09:00 referencing the math subject. -/
def entryNine : StoredEntry :=
  { _id := "e1", day := some "Monday", slot := some 1, start_time := some "09:00",
    end_time := some "10:00", teacher_id := some "aaaaaaaaaaaaaaaaaaaaaaaa",
    subject_id := some (.oid "bbbbbbbbbbbbbbbbbbbbbbbb"),
    room_number := some "R1", branch := some "CSE", semester := some 4 }

/-- A stored entry at 08:00 with no subject reference. -/
def entryEight : StoredEntry :=
  { _id := "e2", day := some "Monday", slot := some 2, start_time := some "08:00",
    end_time := some "09:00", teacher_id := some "aaaaaaaaaaaaaaaaaaaaaaaa",
    subject_id := none, room_number := none, branch := some "CSE",
    semester := some 4 }

/-- A stored entry at 10:30 whose subject reference has no catalog record. -/
def entryLate : StoredEntry :=
  { _id := "e3", day := some "Monday", slot := some 3, start_time := some "10:30",
    end_time := some "11:30", teacher_id := some "aaaaaaaaaaaaaaaaaaaaaaaa",
    subject_id := some (.oid "cccccccccccccccccccccccc"), room_number := none,
    branch := some "CSE", semester := some 4 }

/-- A stored entry with a missing `start_time`. -/
def brokenEntry : StoredEntry :=
  { _id := "e4", day := some "Monday", slot := some 4, start_time := none,
    end_time := some "12:00", teacher_id := some "aaaaaaaaaaaaaaaaaaaaaaaa",
    subject_id := none, room_number := none, branch := some "CSE",
    semester := some 4 }

/-- The main database fixture. -/
def sampleDB : DB :=
  { teachers := [sampleTeacher], students := [sampleStudent, cohortlessStudent],
    subjects := [mathSubject], schedules := [entryNine, entryEight, entryLate],
    nextId := 0 }

/-- The fixture extended with an entry whose `start_time` is missing. -/
def brokenDB : DB :=
  { sampleDB with schedules := sampleDB.schedules ++ [brokenEntry] }

/-- The caller resolving to `sampleTeacher`. -/
def teacherCaller : Caller := { user_id := "u1", role := some "teacher" }

/-- The caller resolving to `sampleStudent`. -/
def studentCaller : Caller := { user_id := "u2", role := some "student" }

/-- The caller resolving to `cohortlessStudent`. -/
def cohortlessCaller : Caller := { user_id := "u4", role := some "student" }

/-- A create request with a null subject reference. -/
def nullSidEntry : ScheduleEntry :=
  { day := some "Monday", slot := some 1, start_time := some "09:00",
    end_time := some "10:00", subject_id := none, room_number := none,
    branch := some "CSE", semester := some 4, teacher_id := none }

/-- A create request whose subject reference is well-formed but has no
catalog record behind it. -/
def ghostSidEntry : ScheduleEntry :=
  { day := some "Monday", slot := some 1, start_time := some "09:00",
    end_time := some "10:00", subject_id := some "cccccccccccccccccccccccc",
    room_number := none, branch := some "CSE", semester := some 4,
    teacher_id := none }

/-- A replace-all input entry with a malformed subject reference. -/
def malformedSidEntry : ScheduleEntry :=
  { day := some "Monday", slot := some 1, start_time := some "09:00",
    end_time := some "10:00", subject_id := some "not-an-oid",
    room_number := none, branch := some "CSE", semester := some 4,
    teacher_id := none }

/-! ### Claim theorems -/

/-- The full-schedule query never fetches more than 1000 documents. -/
theorem fullQueryEntries_length (db : DB) (caller : Caller) (es : List StoredEntry)
    (h : fullQueryEntries db caller = .ok es) : es.length ≤ 1000 := by
  unfold fullQueryEntries at h
  split at h
  · split at h
    · exact Except.noConfusion h
    · cases h
      simp
  · split at h
    · split at h
      · exact Except.noConfusion h
      · split at h
        · cases h
          simp
        · cases h
          simp
    · exact Except.noConfusion h

/-- The today query never fetches more than 100 documents. -/
theorem todayQueryEntries_length (db : DB) (caller : Caller) (d : String)
    (es : List StoredEntry)
    (h : todayQueryEntries db caller d = .ok es) : es.length ≤ 100 := by
  unfold todayQueryEntries at h
  split at h
  · split at h
    · exact Except.noConfusion h
    · cases h
      simp
  · split at h
    · split at h
      · exact Except.noConfusion h
      · split at h
        · cases h
          simp
        · cases h
          simp
    · exact Except.noConfusion h

/-- Reduction of the today handler once the role query has resolved: the
response is decided by the row-building loop. -/
theorem getTodaySchedule_reduce (db : DB) (caller : Caller) (d : String)
    (es : List StoredEntry) (hq : todayQueryEntries db caller d = .ok es) :
    getTodaySchedule db caller d =
      match todayClassesRaw db es with
      | .error e => .error e
      | .ok cs => .ok { classes := sortClasses cs, current_day := d } := by
  unfold getTodaySchedule
  rw [hq]

/-- C10: the full-schedule read returns at most 1000 rows and the today
read considers at most 100 matched entries; entries beyond those caps are
silently omitted rather than reported as an error. -/
theorem c10_read_caps (db : DB) (caller : Caller) (d : String)
    (cs : List ClassPeriod) (r : TodayScheduleResponse)
    (hFull : getFullSchedule db caller = .ok cs)
    (hToday : getTodaySchedule db caller d = .ok r) :
    cs.length ≤ 1000 ∧ r.classes.length ≤ 100 := by
  constructor
  · unfold getFullSchedule at hFull
    cases hq : fullQueryEntries db caller with
    | error e => rw [hq] at hFull; exact Except.noConfusion hFull
    | ok es =>
      rw [hq] at hFull
      calc cs.length = es.length := fullFromEntries_ok_length db es cs hFull
        _ ≤ 1000 := fullQueryEntries_length db caller es hq
  · cases hq : todayQueryEntries db caller d with
    | error e =>
      unfold getTodaySchedule at hToday
      rw [hq] at hToday
      exact Except.noConfusion hToday
    | ok es =>
      rw [getTodaySchedule_reduce db caller d es hq] at hToday
      cases hL : todayClassesRaw db es with
      | error e => rw [hL] at hToday; exact Except.noConfusion hToday
      | ok L =>
        rw [hL] at hToday
        cases hToday
        calc (sortClasses L).length
            = L.length := (sortClasses_perm _).length_eq
          _ ≤ es.length := todayClassesRaw_length db es L hL
          _ ≤ 100 := todayQueryEntries_length db caller d es hq

/-- The full-schedule rows served to `studentCaller` on the fixture. -/
def wFullClasses : List ClassPeriod :=
  (getFullSchedule sampleDB studentCaller).toOption.getD []

/-- The today response served to `studentCaller` on the fixture. -/
def wTodayResp : TodayScheduleResponse :=
  (getTodaySchedule sampleDB studentCaller "Monday").toOption.getD ⟨[], ""⟩

/-- Witness for C10 at the fixture database. -/
theorem c10_read_caps_witness :
    getFullSchedule sampleDB studentCaller = .ok wFullClasses ∧
    getTodaySchedule sampleDB studentCaller "Monday" = .ok wTodayResp ∧
    (wFullClasses.length ≤ 1000 ∧ wTodayResp.classes.length ≤ 100) :=
  ⟨rfl, rfl,
    c10_read_caps sampleDB studentCaller "Monday" wFullClasses wTodayResp rfl rfl⟩

/-- C9: whenever the target schedules collection already contains at least
one entry, a migration run performs zero inserts, leaves the store
unchanged, and reports the pre-existing count. -/
theorem c9_migrate_rerun_guard (db : DB) (h : db.schedules ≠ []) :
    migrate db = .ok (db, .alreadyPopulated db.schedules.length) := by
  unfold migrate
  rw [if_pos (List.length_pos.mpr h)]

/-- Witness for C9 at the fixture database, whose collection holds three
entries. -/
theorem c9_migrate_rerun_guard_witness :
    sampleDB.schedules ≠ [] ∧
      migrate sampleDB = .ok (sampleDB, .alreadyPopulated sampleDB.schedules.length) :=
  ⟨by decide, c9_migrate_rerun_guard sampleDB (by decide)⟩

/-- C3: a student with a truthy cohort key sees, in both the full and the
today view, only rows derived from entries whose branch and semester equal
that key; a student with a missing branch or semester gets empty results
from both views and no error. -/
theorem c3_student_cohort_scoping (db : DB) (caller : Caller) (st : Student)
    (d : String)
    (hrole : caller.role = some "student")
    (hst : db.students.find? (fun x => x.user_id == caller.user_id) = some st) :
    (optStrTruthy st.branch = true → optIntTruthy st.semester = true →
      (∀ cs, getFullSchedule db caller = .ok cs →
        ∀ c ∈ cs, ∃ s ∈ db.schedules,
          s.branch = st.branch ∧ s.semester = st.semester ∧
            mkFullClassPeriod db s = .ok c) ∧
      (∀ r, getTodaySchedule db caller d = .ok r →
        ∀ c ∈ r.classes, ∃ s ∈ db.schedules,
          s.branch = st.branch ∧ s.semester = st.semester ∧ s.day = some d ∧
          ∃ st' et' sl, s.start_time = some st' ∧ s.end_time = some et' ∧
            s.slot = some sl ∧ c = mkTodayClassPeriod db s st' et' sl)) ∧
    ((optStrTruthy st.branch = false ∨ optIntTruthy st.semester = false) →
      getFullSchedule db caller = .ok [] ∧
      getTodaySchedule db caller d = .ok { classes := [], current_day := d }) := by
  have hrole1 : (caller.role == some "teacher") = false := by
    rw [hrole]; rfl
  have hrole2 : (caller.role == some "student") = true := by
    rw [hrole]; rfl
  constructor
  · intro hb hsem
    have hcond : (optStrTruthy st.branch && optIntTruthy st.semester) = true := by
      simp [hb, hsem]
    have hq : fullQueryEntries db caller =
        .ok ((db.schedules.filter
          (fun s => s.branch == st.branch && s.semester == st.semester)).take 1000) := by
      unfold fullQueryEntries
      rw [hrole1]
      simp only [Bool.false_eq_true, if_false]
      rw [hrole2]
      simp only [if_true, hst, hcond]
    have hqT : todayQueryEntries db caller d =
        .ok ((db.schedules.filter
          (fun s => s.day == some d
            && s.branch == st.branch && s.semester == st.semester)).take 100) := by
      unfold todayQueryEntries
      rw [hrole1]
      simp only [Bool.false_eq_true, if_false]
      rw [hrole2]
      simp only [if_true, hst, hcond]
    constructor
    · intro cs hcs c hc
      unfold getFullSchedule at hcs
      rw [hq] at hcs
      rcases fullFromEntries_ok_mem db _ cs hcs c hc with ⟨s, hs, hmk⟩
      have hs' := List.take_subset _ _ hs
      rcases List.mem_filter.mp hs' with ⟨hmem, hpred⟩
      rcases Bool.and_eq_true .. |>.mp hpred with ⟨hb', hs''⟩
      exact ⟨s, hmem, by simpa using hb', by simpa using hs'', hmk⟩
    · intro r hr c hc
      rw [getTodaySchedule_reduce db caller d _ hqT] at hr
      cases hL : todayClassesRaw db ((db.schedules.filter
          (fun s => s.day == some d
            && s.branch == st.branch && s.semester == st.semester)).take 100) with
      | error e =>
        rw [hL] at hr
        exact Except.noConfusion hr
      | ok L =>
        rw [hL] at hr
        cases hr
        have hc' := (sortClasses_perm _).mem_iff.mp hc
        rcases todayClassesRaw_mem db _ L hL c hc' with
          ⟨s, hs, st', et', sl, hst', het', hne1, hne2, hsl, hcmk⟩
        have hs' := List.take_subset _ _ hs
        rcases List.mem_filter.mp hs' with ⟨hmem, hpred⟩
        rcases Bool.and_eq_true .. |>.mp hpred with ⟨hdb2, hs''⟩
        rcases Bool.and_eq_true .. |>.mp hdb2 with ⟨hd', hb'⟩
        exact ⟨s, hmem, by simpa using hb', by simpa using hs'', by simpa using hd',
          st', et', sl, hst', het', hsl, hcmk⟩
  · intro hmiss
    have hcond : (optStrTruthy st.branch && optIntTruthy st.semester) = false := by
      rcases hmiss with hm | hm <;> simp [hm]
    constructor
    · unfold getFullSchedule fullQueryEntries
      rw [hrole1]
      simp only [Bool.false_eq_true, if_false]
      rw [hrole2]
      simp only [if_true, hst, hcond, Bool.false_eq_true, if_false]
      rfl
    · unfold getTodaySchedule todayQueryEntries
      rw [hrole1]
      simp only [Bool.false_eq_true, if_false]
      rw [hrole2]
      simp only [if_true, hst, hcond, Bool.false_eq_true, if_false]
      simp [sortClasses, todayClassesRaw]

/-- Witness for C3: the fixture student with a complete cohort key, and the
fixture student with no branch. -/
theorem c3_student_cohort_scoping_witness :
    (studentCaller.role = some "student" ∧
      sampleDB.students.find? (fun x => x.user_id == studentCaller.user_id) =
        some sampleStudent ∧
      ((optStrTruthy sampleStudent.branch = true →
          optIntTruthy sampleStudent.semester = true →
        (∀ cs, getFullSchedule sampleDB studentCaller = .ok cs →
          ∀ c ∈ cs, ∃ s ∈ sampleDB.schedules,
            s.branch = sampleStudent.branch ∧ s.semester = sampleStudent.semester ∧
              mkFullClassPeriod sampleDB s = .ok c) ∧
        (∀ r, getTodaySchedule sampleDB studentCaller "Monday" = .ok r →
          ∀ c ∈ r.classes, ∃ s ∈ sampleDB.schedules,
            s.branch = sampleStudent.branch ∧ s.semester = sampleStudent.semester ∧
              s.day = some "Monday" ∧
              ∃ st' et' sl, s.start_time = some st' ∧ s.end_time = some et' ∧
                s.slot = some sl ∧
                c = mkTodayClassPeriod sampleDB s st' et' sl)) ∧
      ((optStrTruthy sampleStudent.branch = false ∨
          optIntTruthy sampleStudent.semester = false) →
        getFullSchedule sampleDB studentCaller = .ok [] ∧
        getTodaySchedule sampleDB studentCaller "Monday" =
          .ok { classes := [], current_day := "Monday" }))) ∧
    (cohortlessCaller.role = some "student" ∧
      sampleDB.students.find? (fun x => x.user_id == cohortlessCaller.user_id) =
        some cohortlessStudent ∧
      (optStrTruthy cohortlessStudent.branch = false ∨
        optIntTruthy cohortlessStudent.semester = false) ∧
      getFullSchedule sampleDB cohortlessCaller = .ok [] ∧
      getTodaySchedule sampleDB cohortlessCaller "Monday" =
        .ok { classes := [], current_day := "Monday" }) :=
  ⟨⟨rfl, by decide,
      c3_student_cohort_scoping sampleDB studentCaller sampleStudent "Monday"
        rfl (by decide)⟩,
    rfl, by decide, .inl (by decide),
    (c3_student_cohort_scoping sampleDB cohortlessCaller cohortlessStudent "Monday"
        rfl (by decide)).2 (.inl (by decide))⟩

/-- C4: when the row-building loop of the today view has produced its rows
and every one has a parseable `HH:MM` start time, the response is those
rows sorted ascending by that time; when any produced row has an
unparseable start time, the whole response is the unsorted query-order
sequence, with no partial sorting. -/
theorem c4_today_sort (db : DB) (caller : Caller) (d : String)
    (es : List StoredEntry) (L : List ClassPeriod)
    (h : todayQueryEntries db caller d = .ok es)
    (hL : todayClassesRaw db es = .ok L) :
    ∃ r, getTodaySchedule db caller d = .ok r ∧ r.current_day = d ∧
      List.Perm r.classes L ∧
      ((∀ c ∈ r.classes, (parseHHMM c.start_time).isSome = true) →
        r.classes.Pairwise (fun a b => classLe a b = true)) ∧
      ((∃ c ∈ r.classes, parseHHMM c.start_time = none) →
        r.classes = L) := by
  refine ⟨{ classes := sortClasses L, current_day := d },
    ?_, rfl, sortClasses_perm _, ?_, ?_⟩
  · rw [getTodaySchedule_reduce db caller d es h, hL]
  · intro hall
    by_cases hb : (L.all (fun c => (parseHHMM c.start_time).isSome)) = true
    · show (sortClasses L).Pairwise _
      unfold sortClasses
      rw [if_pos hb]
      exact List.sorted_mergeSort classLe_trans classLe_total _
    · have hb' : (L.all (fun c => (parseHHMM c.start_time).isSome)) = false :=
        ne_true_eq_false hb
      rcases List.all_eq_false.mp hb' with ⟨x, hx, hxf⟩
      have hx' : x ∈ sortClasses L := (sortClasses_perm _).mem_iff.mpr hx
      exact absurd (hall x hx') hxf
  · rintro ⟨c, hc, hnone⟩
    by_cases hb : (L.all (fun c => (parseHHMM c.start_time).isSome)) = true
    · have hc' : c ∈ L := (sortClasses_perm _).mem_iff.mp hc
      have := List.all_eq_true.mp hb c hc'
      rw [hnone] at this
      cases this
    · show sortClasses L = L
      unfold sortClasses
      rw [if_neg hb]

/-- The entries the today query fetches for `studentCaller` on the fixture,
whose start times are 09:00, 08:00 and 10:30 in store order. -/
def wTodayEntries : List StoredEntry :=
  (todayQueryEntries sampleDB studentCaller "Monday").toOption.getD []

/-- The rows the today loop builds from those entries. -/
def wTodayRows : List ClassPeriod :=
  (todayClassesRaw sampleDB wTodayEntries).toOption.getD []

/-- Witness for C4 at the fixture database. -/
theorem c4_today_sort_witness :
    todayQueryEntries sampleDB studentCaller "Monday" = .ok wTodayEntries ∧
    todayClassesRaw sampleDB wTodayEntries = .ok wTodayRows ∧
    (∃ r, getTodaySchedule sampleDB studentCaller "Monday" = .ok r ∧
      r.current_day = "Monday" ∧
      List.Perm r.classes wTodayRows ∧
      ((∀ c ∈ r.classes, (parseHHMM c.start_time).isSome = true) →
        r.classes.Pairwise (fun a b => classLe a b = true)) ∧
      ((∃ c ∈ r.classes, parseHHMM c.start_time = none) →
        r.classes = wTodayRows)) :=
  ⟨rfl, rfl,
    c4_today_sort sampleDB studentCaller "Monday" wTodayEntries wTodayRows rfl rfl⟩


/-- The predicate `delete_one` matches: the stored id equals the supplied
`ObjectId` and the ownership equals the calling teacher. -/
def deleteTarget (t : Teacher) (sid : String) (s : StoredEntry) : Bool :=
  s._id == normOid sid && s.teacher_id == some t._id

/-- Reduction of the delete handler for a teacher caller with a resolved
profile and a well-formed id: the outcome is decided solely by whether some
stored entry matches both the id and the caller's ownership. -/
theorem deleteScheduleEntry_reduce (db : DB) (caller : Caller) (t : Teacher)
    (sid : String)
    (hrole : caller.role = some "teacher")
    (ht : db.teachers.find? (fun x => x.user_id == caller.user_id) = some t)
    (hvalid : isValidOidStr sid = true) :
    deleteScheduleEntry db caller sid =
      if db.schedules.any (deleteTarget t sid) then
        ({ db with schedules := db.schedules.eraseP (deleteTarget t sid) },
          .ok "Deleted")
      else (db, .error .notFoundOrForbidden) := by
  have h1 : (caller.role != some "teacher") = false := by rw [hrole]; rfl
  have h2 : (!isValidOidStr sid) = false := by rw [hvalid]; rfl
  unfold deleteScheduleEntry
  rw [h1]
  simp only [Bool.false_eq_true, if_false]
  rw [h2]
  simp only [Bool.false_eq_true, if_false, ht]
  rfl

/-- C5: for a teacher caller and a well-formed id, deleting an id that
matches no stored entry of the caller — nonexistent or owned by someone
else alike — yields the merged `notFoundOrForbidden` error and leaves the
store untouched, so the two failure cases are indistinguishable in both
error and resulting state; deletion succeeds only when a stored entry
carries both the id and the caller's ownership. -/
theorem c5_delete_nondistinguishable (db : DB) (caller : Caller) (t : Teacher)
    (sid : String)
    (hrole : caller.role = some "teacher")
    (ht : db.teachers.find? (fun x => x.user_id == caller.user_id) = some t)
    (hvalid : isValidOidStr sid = true) :
    ((∀ s ∈ db.schedules, ¬(s._id = normOid sid ∧ s.teacher_id = some t._id)) →
      deleteScheduleEntry db caller sid = (db, .error .notFoundOrForbidden)) ∧
    (∀ db' m, deleteScheduleEntry db caller sid = (db', .ok m) →
      ∃ s ∈ db.schedules, s._id = normOid sid ∧ s.teacher_id = some t._id) ∧
    (∀ sid2, isValidOidStr sid2 = true →
      (∀ s ∈ db.schedules, ¬(s._id = normOid sid ∧ s.teacher_id = some t._id)) →
      (∀ s ∈ db.schedules, ¬(s._id = normOid sid2 ∧ s.teacher_id = some t._id)) →
      deleteScheduleEntry db caller sid = deleteScheduleEntry db caller sid2) := by
  have hfail : ∀ s2 : String, isValidOidStr s2 = true →
      (∀ s ∈ db.schedules, ¬(s._id = normOid s2 ∧ s.teacher_id = some t._id)) →
      deleteScheduleEntry db caller s2 = (db, .error .notFoundOrForbidden) := by
    intro s2 hv2 hnone
    have hany : db.schedules.any (deleteTarget t s2) = false := by
      rw [List.any_eq_false]
      intro s hs
      simp only [deleteTarget, Bool.and_eq_true, beq_iff_eq]
      exact hnone s hs
    rw [deleteScheduleEntry_reduce db caller t s2 hrole ht hv2, hany]
    simp
  refine ⟨hfail sid hvalid, ?_, ?_⟩
  · intro db' m heq
    rw [deleteScheduleEntry_reduce db caller t sid hrole ht hvalid] at heq
    by_cases hany : db.schedules.any (deleteTarget t sid) = true
    · rcases List.any_eq_true.mp hany with ⟨s, hs, hp⟩
      rw [deleteTarget] at hp
      rcases Bool.and_eq_true .. |>.mp hp with ⟨hp1, hp2⟩
      exact ⟨s, hs, by simpa using hp1, by simpa using hp2⟩
    · rw [if_neg hany] at heq
      exact Except.noConfusion (congrArg Prod.snd heq)
  · intro sid2 hv2 hn1 hn2
    rw [hfail sid hvalid hn1, hfail sid2 hv2 hn2]

/-- Witness for C5: a well-formed id matching nothing on the fixture. -/
theorem c5_delete_nondistinguishable_witness :
    teacherCaller.role = some "teacher" ∧
    sampleDB.teachers.find? (fun x => x.user_id == teacherCaller.user_id) =
      some sampleTeacher ∧
    isValidOidStr "abcabcabcabcabcabcabcabc" = true ∧
    (∀ s ∈ sampleDB.schedules,
      ¬(s._id = normOid "abcabcabcabcabcabcabcabc" ∧
        s.teacher_id = some sampleTeacher._id)) ∧
    deleteScheduleEntry sampleDB teacherCaller "abcabcabcabcabcabcabcabc" =
      (sampleDB, .error .notFoundOrForbidden) :=
  ⟨rfl, by decide, by decide, by decide,
    (c5_delete_nondistinguishable sampleDB teacherCaller sampleTeacher
        "abcabcabcabcabcabcabcabc" rfl (by decide) (by decide)).1 (by decide)⟩

/-- A stored entry matching the fixture cohort whose times are truthy but
whose `slot` is null, as the migration can write. -/
def nullSlotEntry : StoredEntry :=
  { _id := "e5", day := some "Monday", slot := none, start_time := some "07:00",
    end_time := some "08:00", teacher_id := some "aaaaaaaaaaaaaaaaaaaaaaaa",
    subject_id := none, room_number := none, branch := some "CSE",
    semester := some 4 }

/-- The fixture extended with the null-slot entry. -/
def slotlessDB : DB :=
  { sampleDB with schedules := sampleDB.schedules ++ [nullSlotEntry] }

/-- C7 (amended): an unresolvable subject reference yields the placeholder
name instead of an error in both views; rows with falsy times contribute
nothing to the today view — they are skipped before the row is built, so
the today view answers whenever every fetched entry with truthy times has
a non-null slot; but per-record data can still fail either read as a
whole: the today view fails when a fetched entry with truthy times has a
null slot, and the full view fails when any fetched entry lacks a time or
a slot, since `ClassPeriod` requires both time strings and an integer
slot. -/
theorem c7_read_degradation (db : DB) (caller : Caller) (d : String)
    (es fs : List StoredEntry)
    (hT : todayQueryEntries db caller d = .ok es)
    (hF : fullQueryEntries db caller = .ok fs) :
    (∀ sid, resolvesSubject db sid = false →
      subjectNameFor db sid = "Unknown Subject") ∧
    (todayClassesRaw db es =
      todayClassesRaw db (es.filter
        (fun s => optStrTruthy s.start_time && optStrTruthy s.end_time))) ∧
    ((∀ s ∈ es, (optStrTruthy s.start_time && optStrTruthy s.end_time) = true →
        s.slot ≠ none) →
      ∃ r, getTodaySchedule db caller d = .ok r) ∧
    ((∃ s ∈ es, (optStrTruthy s.start_time && optStrTruthy s.end_time) = true ∧
        s.slot = none) →
      getTodaySchedule db caller d = .error .responseInvalid) ∧
    ((∃ s ∈ fs, s.start_time = none ∨ s.end_time = none ∨ s.slot = none) →
      getFullSchedule db caller = .error .responseInvalid) := by
  refine ⟨?_, todayClassesRaw_filter db es, ?_, ?_, ?_⟩
  · intro sid hres
    cases sid with
    | none => rfl
    | some r =>
      simp only [subjectNameFor]
      by_cases htr : srefTruthy r = true
      · rw [if_pos htr]
        cases hfind : db.subjects.find? (srefMatches r) with
        | none => rfl
        | some subj =>
          simp only [resolvesSubject, htr, hfind] at hres
          simp at hres
      · rw [if_neg htr]
  · intro hok
    rcases todayClassesRaw_ok db es hok with ⟨cs, hcs⟩
    refine ⟨{ classes := sortClasses cs, current_day := d }, ?_⟩
    rw [getTodaySchedule_reduce db caller d es hT, hcs]
  · intro hbad
    rw [getTodaySchedule_reduce db caller d es hT, todayClassesRaw_error db es hbad]
  · intro hbad
    unfold getFullSchedule
    rw [hF]
    exact fullFromEntries_error db fs hbad

/-- Counterexample to C7 as stated: malformed per-record data does fail
whole read requests on this code — a matched entry with a missing
`start_time` fails the full view, and a matched entry with truthy times
but a null `slot` fails the today view (while the same broken store still
answers the today view when the bad entry is only missing a time). -/
theorem c7_read_degradation_cx :
    brokenEntry ∈ brokenDB.schedules ∧ brokenEntry.start_time = none ∧
    getFullSchedule brokenDB studentCaller = .error .responseInvalid ∧
    getTodaySchedule brokenDB studentCaller "Monday" =
      .ok ((getTodaySchedule brokenDB studentCaller "Monday").toOption.getD
        { classes := [], current_day := "" }) ∧
    nullSlotEntry ∈ slotlessDB.schedules ∧ nullSlotEntry.slot = none ∧
    optStrTruthy nullSlotEntry.start_time = true ∧
    optStrTruthy nullSlotEntry.end_time = true ∧
    getTodaySchedule slotlessDB studentCaller "Monday" = .error .responseInvalid :=
  ⟨by decide, rfl, rfl, rfl, by decide, rfl, rfl, rfl, rfl⟩

/-- The entries the today query fetches on the null-slot fixture. -/
def wTodayEntriesSlotless : List StoredEntry :=
  (todayQueryEntries slotlessDB studentCaller "Monday").toOption.getD []

/-- The entries the full query fetches on the null-slot fixture. -/
def wFullEntriesSlotless : List StoredEntry :=
  (fullQueryEntries slotlessDB studentCaller).toOption.getD []

/-- Witness for the amended C7 at the null-slot fixture. -/
theorem c7_read_degradation_witness :
    todayQueryEntries slotlessDB studentCaller "Monday" = .ok wTodayEntriesSlotless ∧
    fullQueryEntries slotlessDB studentCaller = .ok wFullEntriesSlotless ∧
    ((∀ sid, resolvesSubject slotlessDB sid = false →
        subjectNameFor slotlessDB sid = "Unknown Subject") ∧
      (todayClassesRaw slotlessDB wTodayEntriesSlotless =
        todayClassesRaw slotlessDB (wTodayEntriesSlotless.filter
          (fun s => optStrTruthy s.start_time && optStrTruthy s.end_time))) ∧
      ((∀ s ∈ wTodayEntriesSlotless,
          (optStrTruthy s.start_time && optStrTruthy s.end_time) = true →
          s.slot ≠ none) →
        ∃ r, getTodaySchedule slotlessDB studentCaller "Monday" = .ok r) ∧
      ((∃ s ∈ wTodayEntriesSlotless,
          (optStrTruthy s.start_time && optStrTruthy s.end_time) = true ∧
          s.slot = none) →
        getTodaySchedule slotlessDB studentCaller "Monday" =
          .error .responseInvalid) ∧
      ((∃ s ∈ wFullEntriesSlotless,
          s.start_time = none ∨ s.end_time = none ∨ s.slot = none) →
        getFullSchedule slotlessDB studentCaller = .error .responseInvalid)) :=
  ⟨rfl, rfl,
    c7_read_degradation slotlessDB studentCaller "Monday"
      wTodayEntriesSlotless wFullEntriesSlotless rfl rfl⟩

/-- The state after phase 1 of replace-all: `delete_many` has removed every
entry owned by the calling teacher. -/
def phase1 (db : DB) (t : Teacher) : DB :=
  { db with schedules := db.schedules.filter (fun s => s.teacher_id != some t._id) }

/-- Reduction of the replace-all handler for a teacher caller with a
resolved profile. -/
theorem replaceFullSchedule_reduce (db : DB) (caller : Caller) (t : Teacher)
    (entries : List ScheduleEntry)
    (hrole : caller.role = some "teacher")
    (ht : db.teachers.find? (fun x => x.user_id == caller.user_id) = some t) :
    replaceFullSchedule db caller entries =
      if entries.isEmpty then (phase1 db t, .ok "Schedule cleared")
      else
        match buildReplaceDocs (phase1 db t) t._id entries with
        | .error err => (phase1 db t, .error err)
        | .ok docs =>
          (insertMany (phase1 db t) docs,
            .ok ("Schedule updated with " ++ toString docs.length ++ " entries")) := by
  have h1 : (caller.role != some "teacher") = false := by rw [hrole]; rfl
  unfold replaceFullSchedule
  rw [h1]
  simp only [Bool.false_eq_true, if_false, ht]
  rfl

/-- Reduction of the create handler for a teacher caller with a resolved
profile. -/
theorem createScheduleEntry_reduce (db : DB) (caller : Caller) (t : Teacher)
    (e : ScheduleEntry)
    (hrole : caller.role = some "teacher")
    (ht : db.teachers.find? (fun x => x.user_id == caller.user_id) = some t) :
    createScheduleEntry db caller e =
      if !isValidOptOid e.subject_id then (db, .error .invalidSubjectId)
      else
        ({ db with
            schedules := db.schedules ++
              [{ docOfEntry e with
                  _id := freshOid db.nextId
                  subject_id := e.subject_id.map (fun s => .oid (normOid s))
                  teacher_id := some t._id }]
            nextId := db.nextId + 1 },
          .ok (freshOid db.nextId)) := by
  have h1 : (caller.role != some "teacher") = false := by rw [hrole]; rfl
  unfold createScheduleEntry
  rw [h1]
  simp only [Bool.false_eq_true, if_false, ht]
  rfl

/-- C8: replace-all with an empty input succeeds with "Schedule cleared",
leaves the calling teacher with zero stored entries, and preserves every
entry of other teachers. -/
theorem c8_replace_empty_clears (db : DB) (caller : Caller) (t : Teacher)
    (hrole : caller.role = some "teacher")
    (ht : db.teachers.find? (fun x => x.user_id == caller.user_id) = some t) :
    replaceFullSchedule db caller [] = (phase1 db t, .ok "Schedule cleared") ∧
    (∀ s ∈ (phase1 db t).schedules, s.teacher_id ≠ some t._id) ∧
    (∀ s ∈ db.schedules, s.teacher_id ≠ some t._id → s ∈ (phase1 db t).schedules) := by
  refine ⟨?_, ?_, ?_⟩
  · rw [replaceFullSchedule_reduce db caller t [] hrole ht]
    rfl
  · intro s hs
    have hs' : s ∈ db.schedules.filter (fun x => x.teacher_id != some t._id) := hs
    have hpred := (List.mem_filter.mp hs').2
    simpa using hpred
  · intro s hs hne
    show s ∈ db.schedules.filter (fun x => x.teacher_id != some t._id)
    exact List.mem_filter.mpr ⟨hs, by simpa using hne⟩

/-- Witness for C8: the fixture teacher starts with three entries and ends
with none. -/
theorem c8_replace_empty_clears_witness :
    teacherCaller.role = some "teacher" ∧
    sampleDB.teachers.find? (fun x => x.user_id == teacherCaller.user_id) =
      some sampleTeacher ∧
    sampleDB.schedules.length = 3 ∧
    (replaceFullSchedule sampleDB teacherCaller [] =
      (phase1 sampleDB sampleTeacher, .ok "Schedule cleared") ∧
    (∀ s ∈ (phase1 sampleDB sampleTeacher).schedules,
      s.teacher_id ≠ some sampleTeacher._id) ∧
    (∀ s ∈ sampleDB.schedules, s.teacher_id ≠ some sampleTeacher._id →
      s ∈ (phase1 sampleDB sampleTeacher).schedules)) ∧
    (phase1 sampleDB sampleTeacher).schedules = [] :=
  ⟨rfl, by decide, rfl,
    c8_replace_empty_clears sampleDB teacherCaller sampleTeacher rfl (by decide),
    by decide⟩

/-- C6: every entry persisted by create or replace-all carries the resolved
calling teacher's id as `teacher_id`, whatever owner the request supplied:
create appends exactly one document stamped with the caller's id, and after
a successful replace-all every stored document either predates the call or
is stamped with the caller's id. -/
theorem c6_ownership_stamping (db : DB) (caller : Caller) (t : Teacher)
    (hrole : caller.role = some "teacher")
    (ht : db.teachers.find? (fun x => x.user_id == caller.user_id) = some t) :
    (∀ e db' res, createScheduleEntry db caller e = (db', .ok res) →
      ∃ doc, db'.schedules = db.schedules ++ [doc] ∧ doc.teacher_id = some t._id) ∧
    (∀ es db' res, replaceFullSchedule db caller es = (db', .ok res) →
      ∀ s ∈ db'.schedules, s ∈ db.schedules ∨ s.teacher_id = some t._id) := by
  constructor
  · intro e db' res heq
    rw [createScheduleEntry_reduce db caller t e hrole ht] at heq
    by_cases hv : (!isValidOptOid e.subject_id) = true
    · rw [if_pos hv] at heq
      injection heq with h1 h2
      exact Except.noConfusion h2
    · rw [if_neg hv] at heq
      injection heq with h1 h2
      refine ⟨{ docOfEntry e with
          _id := freshOid db.nextId
          subject_id := e.subject_id.map (fun s => .oid (normOid s))
          teacher_id := some t._id }, ?_, rfl⟩
      rw [← h1]
  · intro es db' res heq
    rw [replaceFullSchedule_reduce db caller t es hrole ht] at heq
    by_cases hemp : es.isEmpty = true
    · rw [if_pos hemp] at heq
      injection heq with h1 h2
      intro s hs
      rw [← h1] at hs
      have hs' : s ∈ db.schedules.filter (fun x => x.teacher_id != some t._id) := hs
      exact .inl (List.mem_filter.mp hs').1
    · rw [if_neg hemp] at heq
      cases hbd : buildReplaceDocs (phase1 db t) t._id es with
      | error err =>
        rw [hbd] at heq
        injection heq with h1 h2
        exact Except.noConfusion h2
      | ok docs =>
        rw [hbd] at heq
        injection heq with h1 h2
        intro s hs
        rw [← h1] at hs
        rcases insertMany_mem docs (phase1 db t) s hs with hmem | ⟨doc, hdmem, hteq⟩
        · have hmem' : s ∈ db.schedules.filter (fun x => x.teacher_id != some t._id) := hmem
          exact .inl (List.mem_filter.mp hmem').1
        · right
          rw [hteq]
          exact buildReplaceDocs_teacher (phase1 db t) t._id es docs hbd doc hdmem

/-- Witness for C6 at the fixture database. -/
theorem c6_ownership_stamping_witness :
    teacherCaller.role = some "teacher" ∧
    sampleDB.teachers.find? (fun x => x.user_id == teacherCaller.user_id) =
      some sampleTeacher ∧
    ((∀ e db' res, createScheduleEntry sampleDB teacherCaller e = (db', .ok res) →
      ∃ doc, db'.schedules = sampleDB.schedules ++ [doc] ∧
        doc.teacher_id = some sampleTeacher._id) ∧
    (∀ es db' res, replaceFullSchedule sampleDB teacherCaller es = (db', .ok res) →
      ∀ s ∈ db'.schedules, s ∈ sampleDB.schedules ∨
        s.teacher_id = some sampleTeacher._id)) :=
  ⟨rfl, by decide,
    c6_ownership_stamping sampleDB teacherCaller sampleTeacher rfl (by decide)⟩

/-- C1 (amended): create rejects with the invalid-subject error exactly
when the supplied `subject_id` is not a well-formed `ObjectId` — a null
`subject_id` is therefore rejected, since `is_valid(None)` is false — and
when it is well-formed the handler persists one entry without consulting
the subject catalog, so an unresolvable but well-formed reference is
accepted. -/
theorem c1_create_wellformedness_only (db : DB) (caller : Caller) (t : Teacher)
    (e : ScheduleEntry)
    (hrole : caller.role = some "teacher")
    (ht : db.teachers.find? (fun x => x.user_id == caller.user_id) = some t) :
    (isValidOptOid e.subject_id = false →
      createScheduleEntry db caller e = (db, .error .invalidSubjectId)) ∧
    (isValidOptOid e.subject_id = true →
      createScheduleEntry db caller e =
        ({ db with
            schedules := db.schedules ++
              [{ docOfEntry e with
                  _id := freshOid db.nextId
                  subject_id := e.subject_id.map (fun s => .oid (normOid s))
                  teacher_id := some t._id }]
            nextId := db.nextId + 1 },
          .ok (freshOid db.nextId))) := by
  constructor
  · intro hv
    rw [createScheduleEntry_reduce db caller t e hrole ht,
      if_pos (show (!isValidOptOid e.subject_id) = true by rw [hv]; rfl)]
  · intro hv
    rw [createScheduleEntry_reduce db caller t e hrole ht,
      if_neg (show ¬(!isValidOptOid e.subject_id) = true by rw [hv]; simp)]

/-- Counterexample to C1 as stated: a null `subject_id` is rejected even
though the field is optional, and a well-formed `subject_id` with no
catalog record behind it is accepted and persisted. -/
theorem c1_create_wellformedness_only_cx :
    nullSidEntry.subject_id = none ∧
    createScheduleEntry sampleDB teacherCaller nullSidEntry =
      (sampleDB, .error .invalidSubjectId) ∧
    isValidOptOid ghostSidEntry.subject_id = true ∧
    resolvesSubject sampleDB (some (.oid "cccccccccccccccccccccccc")) = false ∧
    (createScheduleEntry sampleDB teacherCaller ghostSidEntry).2 =
      .ok (freshOid sampleDB.nextId) ∧
    (createScheduleEntry sampleDB teacherCaller ghostSidEntry).1.schedules.length =
      sampleDB.schedules.length + 1 :=
  ⟨rfl, rfl, by decide, by decide, rfl, rfl⟩

/-- Witness for the amended C1 at the fixture, on the request whose
subject does not resolve. -/
theorem c1_create_wellformedness_only_witness :
    teacherCaller.role = some "teacher" ∧
    sampleDB.teachers.find? (fun x => x.user_id == teacherCaller.user_id) =
      some sampleTeacher ∧
    ((isValidOptOid ghostSidEntry.subject_id = false →
      createScheduleEntry sampleDB teacherCaller ghostSidEntry =
        (sampleDB, .error .invalidSubjectId)) ∧
    (isValidOptOid ghostSidEntry.subject_id = true →
      createScheduleEntry sampleDB teacherCaller ghostSidEntry =
        ({ sampleDB with
            schedules := sampleDB.schedules ++
              [{ docOfEntry ghostSidEntry with
                  _id := freshOid sampleDB.nextId
                  subject_id := ghostSidEntry.subject_id.map
                    (fun s => .oid (normOid s))
                  teacher_id := some sampleTeacher._id }]
            nextId := sampleDB.nextId + 1 },
          .ok (freshOid sampleDB.nextId)))) :=
  ⟨rfl, by decide,
    c1_create_wellformedness_only sampleDB teacherCaller sampleTeacher
      ghostSidEntry rfl (by decide)⟩

/-- C2 (amended): replace-all aborts — leaving the teacher with zero
entries and inserting nothing of the batch — exactly for entries whose
subject reference is truthy and *well-formed* yet unresolvable; a malformed
subject reference does not abort: the operation succeeds and the raw value
is kept on the stored document. -/
theorem c2_replace_referential_abort (db : DB) (caller : Caller) (t : Teacher)
    (entries : List ScheduleEntry)
    (hrole : caller.role = some "teacher")
    (ht : db.teachers.find? (fun x => x.user_id == caller.user_id) = some t) :
    ((∃ e ∈ entries, replaceAborts db.subjects e = true) →
      ∃ i, replaceFullSchedule db caller entries =
        (phase1 db t, .error (.subjectNotFound i))) ∧
    (∀ s ∈ (phase1 db t).schedules, s.teacher_id ≠ some t._id) ∧
    ((∀ e ∈ entries, replaceAborts db.subjects e = false) →
      ∃ db' m, replaceFullSchedule db caller entries = (db', .ok m)) := by
  refine ⟨?_, ?_, ?_⟩
  · rintro ⟨e0, he0, ha0⟩
    have hne : entries.isEmpty = false := by
      cases entries with
      | nil => cases he0
      | cons a l => rfl
    have habort : ∃ e ∈ entries, replaceAborts (phase1 db t).subjects e = true :=
      ⟨e0, he0, ha0⟩
    rcases buildReplaceDocs_error (phase1 db t) t._id entries habort with ⟨i, hi⟩
    refine ⟨i, ?_⟩
    rw [replaceFullSchedule_reduce db caller t entries hrole ht, hne]
    simp only [Bool.false_eq_true, if_false]
    rw [hi]
  · intro s hs
    have hs' : s ∈ db.schedules.filter (fun x => x.teacher_id != some t._id) := hs
    have hpred := (List.mem_filter.mp hs').2
    simpa using hpred
  · intro hnone
    by_cases hemp : entries.isEmpty = true
    · exact ⟨phase1 db t, "Schedule cleared", by
        rw [replaceFullSchedule_reduce db caller t entries hrole ht, if_pos hemp]⟩
    · have hne : entries.isEmpty = false := by
        revert hemp
        cases entries.isEmpty <;> simp
      have hnone' : ∀ e ∈ entries, replaceAborts (phase1 db t).subjects e = false :=
        fun e he => hnone e he
      rcases buildReplaceDocs_ok (phase1 db t) t._id entries hnone' with ⟨docs, hd⟩
      refine ⟨insertMany (phase1 db t) docs,
        "Schedule updated with " ++ toString docs.length ++ " entries", ?_⟩
      rw [replaceFullSchedule_reduce db caller t entries hrole ht, hne]
      simp only [Bool.false_eq_true, if_false]
      rw [hd]

/-- Counterexample to C2 as stated: a batch whose only entry carries the
malformed subject reference "not-an-oid" is not rejected — the operation
succeeds and stores the raw string. -/
theorem c2_replace_referential_abort_cx :
    malformedSidEntry.subject_id = some "not-an-oid" ∧
    isValidOptOid malformedSidEntry.subject_id = false ∧
    (replaceFullSchedule sampleDB teacherCaller [malformedSidEntry]).2 =
      .ok "Schedule updated with 1 entries" ∧
    (replaceFullSchedule sampleDB teacherCaller [malformedSidEntry]).1.schedules.map
        (fun s => s.subject_id) = [some (.str "not-an-oid")] :=
  ⟨rfl, by decide, rfl, rfl⟩

/-- Witness for the amended C2: a batch with one well-formed but
unresolvable subject reference aborts on the fixture. -/
theorem c2_replace_referential_abort_witness :
    teacherCaller.role = some "teacher" ∧
    sampleDB.teachers.find? (fun x => x.user_id == teacherCaller.user_id) =
      some sampleTeacher ∧
    (∃ e ∈ [ghostSidEntry], replaceAborts sampleDB.subjects e = true) ∧
    (((∃ e ∈ [ghostSidEntry], replaceAborts sampleDB.subjects e = true) →
      ∃ i, replaceFullSchedule sampleDB teacherCaller [ghostSidEntry] =
        (phase1 sampleDB sampleTeacher, .error (.subjectNotFound i))) ∧
    (∀ s ∈ (phase1 sampleDB sampleTeacher).schedules,
      s.teacher_id ≠ some sampleTeacher._id) ∧
    ((∀ e ∈ [ghostSidEntry], replaceAborts sampleDB.subjects e = false) →
      ∃ db' m, replaceFullSchedule sampleDB teacherCaller [ghostSidEntry] =
        (db', .ok m))) :=
  ⟨rfl, by decide, by decide,
    c2_replace_referential_abort sampleDB teacherCaller sampleTeacher
      [ghostSidEntry] rfl (by decide)⟩
